import Mathlib

/-!
Shallow embedding of the Windows Shell Link (".lnk") decoder from
`src/lnkinfo/main.go`.  Byte buffers are `List Nat` (each entry a byte value),
the reader cursor is a `Nat` that mirrors the Go `uint32` field: every cursor
update the Go code performs in `uint32` arithmetic is taken modulo `2^32`.
Fallible operations return an `Except` result *paired with* the reader state
after the call, because the Go code frequently discards errors and keeps using
the (possibly advanced) reader.
-/

namespace LnkInfo

/-- Modulus of Go `uint32` arithmetic. -/
def U32 : Nat := 4294967296

/-- Modulus of Go `uint64` arithmetic. -/
def U64 : Nat := 18446744073709551616

/-- Mirrors Go `BinaryReader`: an immutable byte buffer plus a `uint32` cursor. -/
structure BinaryReader where
  data : List Nat
  pos : Nat
deriving DecidableEq

/-- The error values the Go code can produce.  `sliceOOB` models the Go
runtime panic raised by an inverted slice expression when `r.pos+n`
overflows `uint32` in `readBytes`. -/
inductive Err where
  | unexpectedEOF
  | seekBeyondEOF
  | invalidHeaderSize
  | invalidCLSID
  | invalidIDListTerminator
  | sliceOOB
deriving DecidableEq

/-- The fixed 16-byte signature `lnkCLSID` from the Go source. -/
def lnkCLSID : List Nat :=
  [0x01, 0x14, 0x02, 0x00, 0x00, 0x00, 0x00, 0x00,
   0xC0, 0x00, 0x00, 0x00, 0x00, 0x00, 0x00, 0x46]

/-- The slice `data[pos : pos+n]` (as used when it is in bounds). -/
def extract (data : List Nat) (pos n : Nat) : List Nat :=
  (data.drop pos).take n

/-- Little-endian value of a byte list (first byte least significant),
as `binary.Read` with `binary.LittleEndian` computes it. -/
def leVal : List Nat → Nat
  | [] => 0
  | b :: bs => b % 256 + 256 * leVal bs

/-- Go `BinaryReader.read` for a value of byte width `w`: bounds check
`int(r.pos)+size > len(r.data)` (no wrap: the sum is taken in `int`), then
decode little-endian and advance the `uint32` cursor. -/
def readU (w : Nat) (r : BinaryReader) : Except Err Nat × BinaryReader :=
  if r.pos + w > r.data.length then (.error .unexpectedEOF, r)
  else (.ok (leVal (extract r.data r.pos w)), ⟨r.data, (r.pos + w) % U32⟩)

/-- Go `BinaryReader.readBytes`: the bounds check computes `r.pos+n` in
`uint32` (it can wrap), widens to `int` and compares with the length; the
subsequent slice `r.data[r.pos : r.pos+n]` panics when the wrapped upper
bound falls below `r.pos` (modelled by `Err.sliceOOB`). -/
def readBytes (n : Nat) (r : BinaryReader) : Except Err (List Nat) × BinaryReader :=
  if (r.pos + n) % U32 > r.data.length then (.error .unexpectedEOF, r)
  else if (r.pos + n) % U32 < r.pos then (.error .sliceOOB, r)
  else (.ok (extract r.data r.pos n), ⟨r.data, (r.pos + n) % U32⟩)

/-- Go `BinaryReader.seek`: fails iff the target exceeds the buffer length
(seeking to the exact end is legal); on success the cursor becomes `p`. -/
def seek (p : Nat) (r : BinaryReader) : Except Err Unit × BinaryReader :=
  if p > r.data.length then (.error .seekBeyondEOF, r)
  else (.ok (), ⟨r.data, p⟩)

/-- A `read` whose error the Go caller discards: a failed read leaves the
target variable at its zero value and the reader untouched. -/
def readUD (w : Nat) (r : BinaryReader) : Nat × BinaryReader :=
  match readU w r with
  | (.ok v, r1) => (v, r1)
  | (.error _, r1) => (0, r1)

/-- A `seek` whose error the Go caller discards. -/
def seekD (p : Nat) (r : BinaryReader) : BinaryReader := (seek p r).2

/-- Go `skipExtraData`, with explicit fuel because the loop does not
terminate on every input: read a 32-bit size, stop on zero, otherwise
advance the cursor by `size - 4` in `uint32` arithmetic (which wraps when
`size < 4` or when the addition overflows).  `none` means the fuel ran out
(the Go loop is still running). -/
def skipExtraDataF : Nat → BinaryReader → Option (Except Err BinaryReader)
  | 0, _ => none
  | fuel + 1, r =>
    match readU 4 r with
    | (.error e, _) => some (.error e)
    | (.ok size, r1) =>
      if size = 0 then some (.ok r1)
      else skipExtraDataF fuel ⟨r1.data, (r1.pos + (size + U32 - 4) % U32) % U32⟩

/-- Go `readCString`: read single bytes until a zero byte; the zero byte is
consumed and excluded.  Errors propagate, but the reader keeps whatever
progress the successful single-byte reads made (the Go caller may discard
the error and keep using the advanced reader). -/
def readCString (r : BinaryReader) : Except Err (List Nat) × BinaryReader :=
  match hb : readBytes 1 r with
  | (.error e, r1) => (.error e, r1)
  | (.ok b, r1) =>
    if b.headD 1 = 0 then (.ok [], r1)
    else
      match readCString r1 with
      | (.error e, r2) => (.error e, r2)
      | (.ok s, r2) => (.ok (b.headD 1 :: s), r2)
termination_by r.data.length - r.pos
decreasing_by
  unfold readBytes at hb
  split_ifs at hb with h1 h2
  · exact absurd (congrArg Prod.fst hb) (by simp)
  · exact absurd (congrArg Prod.fst hb) (by simp)
  · have hr1 : r1 = ⟨r.data, (r.pos + 1) % U32⟩ := (congrArg Prod.snd hb).symm
    have hU : U32 = 4294967296 := rfl
    have hmod : (r.pos + 1) % U32 = r.pos + 1 := by
      rcases Nat.lt_or_ge (r.pos + 1) U32 with h | h
      · exact Nat.mod_eq_of_lt h
      · exfalso
        have hsub : (r.pos + 1) % U32 = (r.pos + 1 - U32) % U32 :=
          (Nat.mod_eq_sub_mod h)
        have hle : (r.pos + 1 - U32) % U32 ≤ r.pos + 1 - U32 := Nat.mod_le _ _
        omega
    rw [hr1]
    simp only [hmod]
    omega

/-- Go `bytes.TrimRight(b, "\x00")`: remove all trailing zero bytes. -/
def trimTrailingZeros (b : List Nat) : List Nat :=
  (b.reverse.dropWhile (· == 0)).reverse

/-- Go `readString`: read a 16-bit character count; in wide mode consume
twice that many bytes and strip trailing zero bytes; in narrow mode consume
that many bytes and return them unmodified. -/
def readString (unicode : Bool) (r : BinaryReader) : Except Err (List Nat) × BinaryReader :=
  match readU 2 r with
  | (.error e, r1) => (.error e, r1)
  | (.ok len16, r1) =>
    if unicode then
      match readBytes (len16 * 2) r1 with
      | (.error e, r2) => (.error e, r2)
      | (.ok b, r2) => (.ok (trimTrailingZeros b), r2)
    else
      match readBytes len16 r1 with
      | (.error e, r2) => (.error e, r2)
      | (.ok b, r2) => (.ok b, r2)

/-- A `readCString` whose error the Go caller discards, keeping the empty
string and the advanced reader. -/
def readCStringD (r : BinaryReader) : List Nat × BinaryReader :=
  match readCString r with
  | (.ok s, r1) => (s, r1)
  | (.error _, r1) => ([], r1)

/-- A `readString` whose error the Go caller discards, keeping the empty
string and the advanced reader. -/
def readStringD (unicode : Bool) (r : BinaryReader) : List Nat × BinaryReader :=
  match readString unicode r with
  | (.ok s, r1) => (s, r1)
  | (.error _, r1) => ([], r1)

/-- Go `filetimeToTime`, with the resulting `time.Time` represented by its
unix-seconds value: zero ticks give an absent value; otherwise the code
computes `(ft - 116444736000000000) / 10000000` in `uint64` arithmetic (the
subtraction wraps modulo `2^64` when `ft` is below the constant) and casts
to `int64` (an identity for every reachable quotient). -/
def filetimeToTime (ft : Nat) : Option Int :=
  if ft = 0 then none
  else some (Int.ofNat (((ft + U64 - 116444736000000000) % U64) / 10000000))

/-- Interpretation of a 32-bit field as Go `int32` (for `iconIndex`). -/
def toSigned32 (v : Nat) : Int :=
  if v < 2147483648 then (v : Int) else (v : Int) - (U32 : Int)

/-- The fields the Go code stores in the header map `h`. -/
structure Header where
  creationTime : Option Int
  accessTime : Option Int
  writeTime : Option Int
  fileSize : Nat
  iconIndex : Int
  showCommand : Nat
  hotKey : Nat
  fileAttributes : Nat
deriving DecidableEq

/-- Go `parseHeader`: read the 32-bit size and the 16-byte class identifier
(propagating their errors), validate both, then perform nine reads whose
errors are discarded, and finally advance the cursor by 10 reserved bytes
without any bounds check.  Returns the header and the raw flags. -/
def parseHeader (r : BinaryReader) : Except Err (Header × Nat) × BinaryReader :=
  match readU 4 r with
  | (.error e, r1) => (.error e, r1)
  | (.ok headerSize, r1) =>
    match readBytes 16 r1 with
    | (.error e, r2) => (.error e, r2)
    | (.ok clsid, r2) =>
      if headerSize ≠ 76 then (.error .invalidHeaderSize, r2)
      else if clsid ≠ lnkCLSID then (.error .invalidCLSID, r2)
      else
        let linkFlags := (readUD 4 r2).1
        let r3 := (readUD 4 r2).2
        let fileAttr := (readUD 4 r3).1
        let r4 := (readUD 4 r3).2
        let ctime := (readUD 8 r4).1
        let r5 := (readUD 8 r4).2
        let atime := (readUD 8 r5).1
        let r6 := (readUD 8 r5).2
        let wtime := (readUD 8 r6).1
        let r7 := (readUD 8 r6).2
        let fileSize := (readUD 4 r7).1
        let r8 := (readUD 4 r7).2
        let iconIndex := (readUD 4 r8).1
        let r9 := (readUD 4 r8).2
        let showCmd := (readUD 4 r9).1
        let r10 := (readUD 4 r9).2
        let hotKey := (readUD 2 r10).1
        let r11 := (readUD 2 r10).2
        (.ok (⟨filetimeToTime ctime, filetimeToTime atime, filetimeToTime wtime,
               fileSize, toSigned32 iconIndex, showCmd, hotKey, fileAttr⟩, linkFlags),
         ⟨r11.data, (r11.pos + 10) % U32⟩)

/-- Go `parseLinkTargetIDList`: read a 16-bit size, consume that many bytes,
and require the final two consumed bytes to be zero. -/
def parseLinkTargetIDList (r : BinaryReader) : Except Err Unit × BinaryReader :=
  match readU 2 r with
  | (.error e, r1) => (.error e, r1)
  | (.ok size, r1) =>
    match readBytes size r1 with
    | (.error e, r2) => (.error e, r2)
    | (.ok d, r2) =>
      if [0, 0].isSuffixOf d then (.ok (), r2)
      else (.error .invalidIDListTerminator, r2)

/-- The two strings the Go code stores in the link-info map (key present,
possibly with an empty value, whenever the corresponding offset is non-zero). -/
structure LinkInfo where
  localBasePath : Option (List Nat)
  commonPathSuffix : Option (List Nat)
deriving DecidableEq

/-- Go `parseLinkInfo`: record `start`, perform seven 32-bit reads with
discarded errors, optionally seek to `start+offset` (error discarded) and
read a C string (error discarded) for each of the two path offsets, and
finally seek to `start+size` with a discarded error.  Never fails. -/
def parseLinkInfo (r : BinaryReader) : LinkInfo × BinaryReader :=
  let start := r.pos
  let size := (readUD 4 r).1
  let r1 := (readUD 4 r).2
  let r2 := (readUD 4 r1).2
  let r3 := (readUD 4 r2).2
  let r4 := (readUD 4 r3).2
  let localOff := (readUD 4 r4).1
  let r5 := (readUD 4 r4).2
  let r6 := (readUD 4 r5).2
  let commonOff := (readUD 4 r6).1
  let r7 := (readUD 4 r6).2
  let lbp := if localOff ≠ 0 then
      some (readCStringD (seekD ((start + localOff) % U32) r7)).1 else none
  let r8 := if localOff ≠ 0 then
      (readCStringD (seekD ((start + localOff) % U32) r7)).2 else r7
  let cps := if commonOff ≠ 0 then
      some (readCStringD (seekD ((start + commonOff) % U32) r8)).1 else none
  let r9 := if commonOff ≠ 0 then
      (readCStringD (seekD ((start + commonOff) % U32) r8)).2 else r8
  (⟨lbp, cps⟩, seekD ((start + size) % U32) r9)

/-- The aggregate the Go `main` assembles before printing the report. -/
structure LnkFile where
  header : Header
  linkInfo : Option LinkInfo
  name : Option (List Nat)
  relativePath : Option (List Nat)
  workingDirectory : Option (List Nat)
  arguments : Option (List Nat)
  iconLocation : Option (List Nat)
deriving DecidableEq

/-- Go `main` after the file is in memory: parse the header (its failure
prints an error and produces no report); every later step's error is
discarded and decoding continues; the report is printed afterwards.
`none` means the fuel for the extra-data loop ran out (the Go program is
still looping and has printed nothing); `some none` means the process ended
with an error message and no report; `some (some f)` means the report for
`f` was printed. -/
def decodeLnk (fuel : Nat) (data : List Nat) : Option (Option LnkFile) :=
  match parseHeader ⟨data, 0⟩ with
  | (.error _, _) => some none
  | (.ok (h, flags), r1) =>
    let unicode := flags.testBit 7
    let r2 := if flags.testBit 0 then (parseLinkTargetIDList r1).2 else r1
    let li := if flags.testBit 1 then some (parseLinkInfo r2).1 else none
    let s3 := if flags.testBit 1 then (parseLinkInfo r2).2 else r2
    let nm := if flags.testBit 2 then some (readStringD unicode s3).1 else none
    let s4 := if flags.testBit 2 then (readStringD unicode s3).2 else s3
    let rp := if flags.testBit 3 then some (readStringD unicode s4).1 else none
    let s5 := if flags.testBit 3 then (readStringD unicode s4).2 else s4
    let wd := if flags.testBit 4 then some (readStringD unicode s5).1 else none
    let s6 := if flags.testBit 4 then (readStringD unicode s5).2 else s5
    let ar := if flags.testBit 5 then some (readStringD unicode s6).1 else none
    let s7 := if flags.testBit 5 then (readStringD unicode s6).2 else s6
    let il := if flags.testBit 6 then some (readStringD unicode s7).1 else none
    let s8 := if flags.testBit 6 then (readStringD unicode s7).2 else s7
    match skipExtraDataF fuel s8 with
    | none => none
    | some _ => some (some ⟨h, li, nm, rp, wd, ar, il⟩)

/-- Whether the Go program reaches the report-printing section. -/
def emitsReport (fuel : Nat) (data : List Nat) : Bool :=
  match decodeLnk fuel data with
  | some (some _) => true
  | _ => false

/-- Whether an `Except` result is a success. -/
def isOkE {α : Type} : Except Err α → Bool
  | .ok _ => true
  | .error _ => false

deriving instance DecidableEq for Except

/-- A 20-byte buffer holding only a valid size field and class identifier:
the shortest prefix `parseHeader` accepts. -/
def hdrOnly20 : List Nat := [76, 0, 0, 0] ++ lnkCLSID

/-- A 20-byte buffer whose size field is zero (invalid). -/
def badHdr20 : List Nat := List.replicate 20 0

/-- A 76-byte buffer: a valid header with flags = 1 (has-ID-list) and
nothing after the header, so the ID-list read hits end of buffer. -/
def idlistTrunc76 : List Nat :=
  [76, 0, 0, 0] ++ lnkCLSID ++ [1, 0, 0, 0] ++ List.replicate 52 0

/-- A 28-byte LinkInfo block whose size field (100) exceeds the buffer. -/
def linkInfoShort28 : List Nat := [100, 0, 0, 0] ++ List.replicate 24 0

/-- A 28-byte LinkInfo block whose size field is exactly its length. -/
def linkInfoOk28 : List Nat := [28, 0, 0, 0] ++ List.replicate 24 0

/-- An extra-data sequence starting with block size 1 (less than 4). -/
def extraUnderflow8 : List Nat := [1, 0, 0, 0, 0, 0, 0, 0]

/-- An extra-data sequence whose two block sizes (8 and 0xFFFFFFF8) sum to
exactly 2^32, so the `uint32` cursor returns to its starting position. -/
def extraCyclic12 : List Nat := [8, 0, 0, 0, 0, 0, 0, 0, 248, 255, 255, 255]

theorem readU_snd_data (w : Nat) (r : BinaryReader) : ((readU w r).2).data = r.data := by
  unfold readU
  split_ifs <;> rfl

theorem readBytes_snd_data (n : Nat) (r : BinaryReader) :
    ((readBytes n r).2).data = r.data := by
  unfold readBytes
  split_ifs <;> rfl

theorem seek_snd_data (p : Nat) (r : BinaryReader) : ((seek p r).2).data = r.data := by
  unfold seek
  split_ifs <;> rfl

theorem readUD_snd_data (w : Nat) (r : BinaryReader) : ((readUD w r).2).data = r.data := by
  unfold readUD
  have h := readU_snd_data w r
  rcases hu : readU w r with ⟨v, r1⟩
  rw [hu] at h
  cases v <;> simpa using h

theorem seekD_data (p : Nat) (r : BinaryReader) : (seekD p r).data = r.data :=
  seek_snd_data p r

theorem readCString_snd_data (r : BinaryReader) : ((readCString r).2).data = r.data := by
  induction r using readCString.induct with
  | case1 x e r1 hb =>
    have hd := readBytes_snd_data 1 x
    rw [hb] at hd
    rw [readCString, hb]
    exact hd
  | case2 x b r1 hb h0 =>
    have hd := readBytes_snd_data 1 x
    rw [hb] at hd
    rw [readCString, hb]
    dsimp only
    rw [if_pos h0]
    exact hd
  | case3 x b r1 hb h0 e r2 hrec ih =>
    have hd := readBytes_snd_data 1 x
    rw [hb] at hd
    rw [hrec] at ih
    rw [readCString, hb]
    dsimp only
    rw [if_neg h0, hrec]
    exact ih.trans hd
  | case4 x b r1 hb h0 s r2 hrec ih =>
    have hd := readBytes_snd_data 1 x
    rw [hb] at hd
    rw [hrec] at ih
    rw [readCString, hb]
    dsimp only
    rw [if_neg h0, hrec]
    exact ih.trans hd

theorem readCStringD_snd_data (r : BinaryReader) : ((readCStringD r).2).data = r.data := by
  unfold readCStringD
  have h := readCString_snd_data r
  rcases hu : readCString r with ⟨v, r1⟩
  rw [hu] at h
  cases v <;> simpa using h

theorem optString_data (c : Prop) [Decidable c] (p : Nat) (r : BinaryReader) :
    (if c then (readCStringD (seekD p r)).2 else r).data = r.data := by
  split
  · rw [readCStringD_snd_data, seekD_data]
  · rfl

theorem seekD_pos_of_le (p : Nat) (r : BinaryReader) (h : p ≤ r.data.length) :
    (seekD p r).pos = p := by
  unfold seekD seek
  rw [if_neg (by omega)]

theorem readU_ok_inv (w : Nat) (r : BinaryReader) (v : Nat) (r1 : BinaryReader)
    (h : readU w r = (Except.ok v, r1)) :
    r.pos + w ≤ r.data.length ∧ v = leVal (extract r.data r.pos w) ∧
      r1 = ⟨r.data, (r.pos + w) % U32⟩ := by
  unfold readU at h
  split_ifs at h with h1
  · exact absurd (congrArg Prod.fst h) (by simp)
  · injection h with ha hb
    injection ha with ha
    exact ⟨by omega, ha.symm, hb.symm⟩

theorem readBytes_ok_inv (n : Nat) (r : BinaryReader) (b : List Nat) (r1 : BinaryReader)
    (h : readBytes n r = (Except.ok b, r1)) :
    (r.pos + n) % U32 ≤ r.data.length ∧ r.pos ≤ (r.pos + n) % U32 ∧
      b = extract r.data r.pos n ∧ r1 = ⟨r.data, (r.pos + n) % U32⟩ := by
  unfold readBytes at h
  split_ifs at h with h1 h2
  · exact absurd (congrArg Prod.fst h) (by simp)
  · exact absurd (congrArg Prod.fst h) (by simp)
  · injection h with ha hb
    injection ha with ha
    exact ⟨by omega, by omega, ha.symm, hb.symm⟩

/-- C1: the claim says no read or skip operation ever advances the cursor
past the end of the buffer without first failing.  The 10-byte reserved
skip in `parseHeader` has no bounds check: on the 20-byte buffer holding
just a valid size field and class identifier, `parseHeader` returns
success with the cursor at 30, past the end of the 20-byte buffer. -/
theorem parseHeader_reserved_skip_overshoots :
    isOkE (parseHeader ⟨hdrOnly20, 0⟩).1 = true ∧
      (parseHeader ⟨hdrOnly20, 0⟩).2.pos = 30 ∧ hdrOnly20.length = 20 := by
  decide

/-- C2 counterexample: decoding is not all-or-nothing.  On the 76-byte
buffer with a valid header whose flags request an ID list but with no
bytes after the header, the ID-list step fails with unexpected EOF, yet
the program still reaches the report-printing section. -/
theorem report_emitted_despite_idlist_error :
    (parseLinkTargetIDList (parseHeader ⟨idlistTrunc76, 0⟩).2).1
        = Except.error Err.unexpectedEOF ∧
      emitsReport 1 idlistTrunc76 = true := by
  decide

/-- C2 amended: only a header failure aborts the decode; every later step's
error is discarded.  Whenever the program terminates, a report is emitted
if and only if the header parse succeeded. -/
theorem decodeLnk_report_iff_header_ok (fuel : Nat) (data : List Nat)
    (out : Option LnkFile) (h : decodeLnk fuel data = some out) :
    out.isSome = isOkE (parseHeader ⟨data, 0⟩).1 := by
  unfold decodeLnk at h
  split at h
  next e r heq =>
    injection h with h
    rw [heq, ← h]
    rfl
  next hd flags r1 heq =>
    dsimp only at h
    split at h
    next => exact absurd h (by simp)
    next res hres =>
      injection h with h
      rw [heq, ← h]
      rfl

/-- C2 amended, witness at the empty buffer (header fails, no report). -/
theorem decodeLnk_report_iff_header_ok_witness :
    (Option.isSome (none : Option LnkFile))
        = isOkE (parseHeader ⟨([] : List Nat), 0⟩).1 :=
  decodeLnk_report_iff_header_ok 1 [] none (by decide)

/-- C3 counterexample: on a 28-byte buffer whose LinkInfo size field is 100,
the final seek to start + size fails silently and the cursor is left at 28,
not at start + size = 100. -/
theorem parseLinkInfo_cursor_not_at_start_add_size :
    (readUD 4 (⟨linkInfoShort28, 0⟩ : BinaryReader)).1 = 100 ∧
      ((parseLinkInfo ⟨linkInfoShort28, 0⟩).2).pos = 28 ∧
      (0 + 100) % U32 ≠ 28 := by
  decide

/-- C3 amended: whenever the target start + size (taken in uint32
arithmetic) does not exceed the buffer length, `parseLinkInfo` leaves the
cursor at exactly that target, independent of whether either path offset
was zero or non-zero; otherwise the failed final seek is ignored. -/
theorem parseLinkInfo_final_pos (r : BinaryReader)
    (h : (r.pos + (readUD 4 r).1) % U32 ≤ r.data.length) :
    ((parseLinkInfo r).2).pos = (r.pos + (readUD 4 r).1) % U32 := by
  unfold parseLinkInfo
  dsimp only
  apply seekD_pos_of_le
  simp only [optString_data, readUD_snd_data]
  exact h

/-- C3 amended, witness on a 28-byte block whose size field is 28. -/
theorem parseLinkInfo_final_pos_witness :
    (0 + (readUD 4 (⟨linkInfoOk28, 0⟩ : BinaryReader)).1) % U32 ≤ linkInfoOk28.length ∧
      ((parseLinkInfo ⟨linkInfoOk28, 0⟩).2).pos
        = (0 + (readUD 4 (⟨linkInfoOk28, 0⟩ : BinaryReader)).1) % U32 :=
  ⟨by decide, parseLinkInfo_final_pos ⟨linkInfoOk28, 0⟩ (by decide)⟩

/-- C4: on the wide field with declared length 3 and raw bytes
41 00 42 00 00 00, the code consumes all 6 bytes but performs no UTF-16
decoding: it strips trailing zero bytes and returns the raw bytes
41 00 42 (the string A, NUL, B), not "AB" (bytes 41 42). -/
theorem readString_wide_no_utf16_decode :
    readString true ⟨[3, 0, 65, 0, 66, 0, 0, 0], 0⟩
        = (Except.ok [65, 0, 66], ⟨[3, 0, 65, 0, 66, 0, 0, 0], 8⟩) ∧
      ([65, 0, 66] : List Nat) ≠ [65, 66] := by
  decide

/-- C5 counterexample: the narrow path performs no trimming.  A narrow
field with declared length 2 and raw bytes 41 00 decodes to the two bytes
41 00 — the returned string ends in a NUL byte. -/
theorem readString_narrow_keeps_trailing_nul :
    (readString false ⟨[2, 0, 65, 0], 0⟩).1 = Except.ok [65, 0] ∧
      ([65, 0] : List Nat).getLast? = some 0 := by
  decide

/-- C5 amended: a successful narrow read consumes exactly the declared
count of bytes after the 2-byte length and returns those bytes unmodified
(no trailing-NUL trimming). -/
theorem readString_narrow_returns_raw (r : BinaryReader) (v : List Nat)
    (r1 : BinaryReader) (h : readString false r = (Except.ok v, r1)) :
    v = extract r.data ((readUD 2 r).2).pos (readUD 2 r).1 ∧
      r1.data = r.data ∧
      r1.pos = (((readUD 2 r).2).pos + (readUD 2 r).1) % U32 := by
  unfold readString at h
  split at h
  next e rA heq => exact absurd (congrArg Prod.fst h) (by simp)
  next len16 rA heq =>
    rw [if_neg (by simp)] at h
    split at h
    next e rB heq2 => exact absurd (congrArg Prod.fst h) (by simp)
    next b rB heq2 =>
      injection h with ha hb
      injection ha with ha
      have hud : readUD 2 r = (len16, rA) := by
        unfold readUD
        rw [heq]
      obtain ⟨_, _, hbv, hrB⟩ := readBytes_ok_inv len16 rA b rB heq2
      obtain ⟨_, _, hrA⟩ := readU_ok_inv 2 r len16 rA heq
      rw [hud]
      subst hb
      refine ⟨?_, ?_, ?_⟩
      · rw [← ha, hbv, hrA]
      · rw [hrB, hrA]
      · rw [hrB, hrA]

/-- C5 amended, witness on the narrow field 02 00 41 00. -/
theorem readString_narrow_returns_raw_witness :
    ([65, 0] : List Nat)
        = extract (BinaryReader.mk [2, 0, 65, 0] 0).data
            ((readUD 2 (⟨[2, 0, 65, 0], 0⟩ : BinaryReader)).2).pos
            (readUD 2 (⟨[2, 0, 65, 0], 0⟩ : BinaryReader)).1 ∧
      (BinaryReader.mk [2, 0, 65, 0] 4).data = (BinaryReader.mk [2, 0, 65, 0] 0).data ∧
      (BinaryReader.mk [2, 0, 65, 0] 4).pos
        = (((readUD 2 (⟨[2, 0, 65, 0], 0⟩ : BinaryReader)).2).pos
            + (readUD 2 (⟨[2, 0, 65, 0], 0⟩ : BinaryReader)).1) % U32 :=
  readString_narrow_returns_raw ⟨[2, 0, 65, 0], 0⟩ [65, 0] ⟨[2, 0, 65, 0], 4⟩ (by decide)

/-- C6: a block size of 1 (non-zero, less than 4) does not fail with any
corrupt-extra-data error: the skip length 1 - 4 wraps modulo 2^32, the
cursor lands back at offset 1, the next size read there is the zero
sentinel, and the skipper returns success. -/
theorem skipExtraData_small_size_wraps_and_succeeds :
    skipExtraDataF 2 ⟨extraUnderflow8, 0⟩
        = some (Except.ok ⟨extraUnderflow8, 5⟩) := by
  decide

/-- Two-state invariant of the cyclic counterexample buffer: from cursor 0
the loop reaches cursor 8 and from cursor 8 it returns to cursor 0, so no
amount of fuel finishes the loop. -/
theorem skipExtraDataF_cyclic_aux (n : Nat) :
    skipExtraDataF n ⟨extraCyclic12, 0⟩ = none ∧
      skipExtraDataF n ⟨extraCyclic12, 8⟩ = none := by
  induction n with
  | zero => exact ⟨rfl, rfl⟩
  | succ n ih => exact ⟨ih.2, ih.1⟩

/-- C7: the extra-data loop does not terminate on every input.  On the
12-byte buffer with block sizes 8 and 0xFFFFFFF8 the uint32 cursor cycles
0 → 8 → 0 forever: for every amount of fuel the loop is still running,
so it neither stops at a sentinel nor fails with unexpected EOF. -/
theorem skipExtraData_cyclic_nontermination (fuel : Nat) :
    skipExtraDataF fuel ⟨extraCyclic12, 0⟩ = none :=
  (skipExtraDataF_cyclic_aux fuel).1

/-- C8: the header decoder never accepts a header whose size field is not
0x4C or whose class identifier differs from the fixed signature: success
implies both fields are valid, and (whenever the 20 header bytes are
readable) a bad size field yields the invalid-header-size error while a
good size field with a bad class identifier yields the invalid-CLSID
error. -/
theorem parseHeader_validates_signature (r : BinaryReader) :
    (∀ hd fl, (parseHeader r).1 = Except.ok (hd, fl) →
        leVal (extract r.data r.pos 4) = 76 ∧
          extract r.data ((r.pos + 4) % U32) 16 = lnkCLSID) ∧
      (r.pos + 20 ≤ r.data.length → r.pos + 20 < U32 →
        (leVal (extract r.data r.pos 4) ≠ 76 →
            (parseHeader r).1 = Except.error Err.invalidHeaderSize) ∧
          (leVal (extract r.data r.pos 4) = 76 →
            extract r.data (r.pos + 4) 16 ≠ lnkCLSID →
              (parseHeader r).1 = Except.error Err.invalidCLSID)) := by
  have hU : U32 = 4294967296 := rfl
  constructor
  · intro hd fl hok
    unfold parseHeader at hok
    split at hok
    next => exact absurd hok (by simp)
    next hs rA heq =>
      split at hok
      next => exact absurd hok (by simp)
      next cl rB heq2 =>
        obtain ⟨_, hv, hrA⟩ := readU_ok_inv 4 r hs rA heq
        obtain ⟨_, _, hcl, _⟩ := readBytes_ok_inv 16 rA cl rB heq2
        split_ifs at hok with hn1 hn2
        all_goals
          exact ⟨by rw [← hv]; omega,
                 by
                   rw [hrA] at hcl
                   dsimp only at hcl
                   rw [← hcl]
                   exact not_ne_iff.mp hn2⟩
  · intro hb hw
    have h4 : (r.pos + 4) % U32 = r.pos + 4 := Nat.mod_eq_of_lt (by omega)
    have h20 : (r.pos + 4 + 16) % U32 = r.pos + 20 := by
      rw [Nat.mod_eq_of_lt (by omega)]
    have hr1 : readU 4 r
        = (Except.ok (leVal (extract r.data r.pos 4)), ⟨r.data, r.pos + 4⟩) := by
      unfold readU
      rw [if_neg (by omega), h4]
    have hr2 : readBytes 16 (⟨r.data, r.pos + 4⟩ : BinaryReader)
        = (Except.ok (extract r.data (r.pos + 4) 16), ⟨r.data, r.pos + 20⟩) := by
      unfold readBytes
      dsimp only
      rw [h20, if_neg (by omega), if_neg (by omega)]
    constructor
    · intro hne
      unfold parseHeader
      rw [hr1]
      dsimp only
      rw [hr2]
      dsimp only
      rw [if_pos hne]
    · intro hsz hcl
      unfold parseHeader
      rw [hr1]
      dsimp only
      rw [hr2]
      dsimp only
      rw [if_neg (by simpa using hsz), if_pos hcl]

/-- C8 witness: an all-zero 20-byte buffer is rejected with the
invalid-header-size error. -/
theorem parseHeader_validates_signature_witness :
    (parseHeader ⟨badHdr20, 0⟩).1 = Except.error Err.invalidHeaderSize :=
  ((parseHeader_validates_signature ⟨badHdr20, 0⟩).2 (by decide) (by decide)).1 (by decide)

/-- C9 counterexample: for the non-zero tick count 1 (below the epoch
constant) the uint64 subtraction wraps and the code yields the far-future
unix-seconds value 1833029933770, not the pre-1970 instant that the
mathematical formula (ticks - 116444736000000000) / 10000000 denotes
(negative under either floor or truncating division). -/
theorem filetimeToTime_pre_epoch_wraps :
    filetimeToTime 1 = some 1833029933770 ∧
      Int.fdiv ((1 : Int) - 116444736000000000) 10000000 ≠ 1833029933770 ∧
      Int.tdiv ((1 : Int) - 116444736000000000) 10000000 ≠ 1833029933770 := by
  refine ⟨by decide, by decide, by decide⟩

/-- C9 amended: a zero tick count yields an absent value; a tick count at
or above 116444736000000000 yields unix seconds
(ticks - 116444736000000000) / 10000000 exactly as the claim states; a
non-zero tick count below the constant wraps modulo 2^64 first. -/
theorem filetimeToTime_cases (ft : Nat) (hf : ft < U64) :
    (ft = 0 → filetimeToTime ft = none) ∧
      (116444736000000000 ≤ ft →
        filetimeToTime ft
          = some (Int.ofNat ((ft - 116444736000000000) / 10000000))) ∧
      (0 < ft → ft < 116444736000000000 →
        filetimeToTime ft
          = some (Int.ofNat ((ft + U64 - 116444736000000000) / 10000000))) := by
  have hU : U64 = 18446744073709551616 := rfl
  refine ⟨?_, ?_, ?_⟩
  · intro h
    unfold filetimeToTime
    rw [if_pos h]
  · intro h
    unfold filetimeToTime
    rw [if_neg (by omega)]
    have hsplit : ft + U64 - 116444736000000000 = (ft - 116444736000000000) + U64 := by
      omega
    rw [hsplit, Nat.add_mod_right, Nat.mod_eq_of_lt (by omega)]
  · intro h0 h1
    unfold filetimeToTime
    rw [if_neg (by omega), Nat.mod_eq_of_lt (by omega)]

/-- C9 amended, witness: the epoch tick count 116444736000000000 yields
unix second 0, the instant 1970-01-01T00:00:00Z. -/
theorem filetimeToTime_cases_witness :
    filetimeToTime 116444736000000000 = some 0 := by
  have h := (filetimeToTime_cases 116444736000000000 (by decide)).2.1 (le_refl _)
  simpa using h

/-- C10: the reader primitives are failure-atomic: whenever a fixed-width
read, a byte read, or a seek returns an error, the reader (and with it the
cursor) is exactly what it was before the call. -/
theorem reader_primitives_error_atomic (r : BinaryReader) (w n p : Nat) :
    (∀ e, (readU w r).1 = Except.error e → (readU w r).2 = r) ∧
      (∀ e, (readBytes n r).1 = Except.error e → (readBytes n r).2 = r) ∧
      (∀ e, (seek p r).1 = Except.error e → (seek p r).2 = r) := by
  refine ⟨?_, ?_, ?_⟩
  · intro e h
    unfold readU at h ⊢
    split_ifs at h ⊢
    all_goals rfl
  · intro e h
    unfold readBytes at h ⊢
    split_ifs at h ⊢
    all_goals rfl
  · intro e h
    unfold seek at h ⊢
    split_ifs at h ⊢
    all_goals rfl

/-- C10 witness: failing calls on the empty buffer leave the reader
untouched. -/
theorem reader_primitives_error_atomic_witness :
    (readU 4 (⟨[], 0⟩ : BinaryReader)).2 = ⟨[], 0⟩ ∧
      (readBytes 4 (⟨[], 0⟩ : BinaryReader)).2 = ⟨[], 0⟩ ∧
      (seek 3 (⟨[], 0⟩ : BinaryReader)).2 = ⟨[], 0⟩ :=
  ⟨(reader_primitives_error_atomic ⟨[], 0⟩ 4 4 3).1 Err.unexpectedEOF (by decide),
   (reader_primitives_error_atomic ⟨[], 0⟩ 4 4 3).2.1 Err.unexpectedEOF (by decide),
   (reader_primitives_error_atomic ⟨[], 0⟩ 4 4 3).2.2 Err.seekBeyondEOF (by decide)⟩

end LnkInfo
